import Mathlib

/-!
Verification development for the load-test engine in
`src/src/components/DDoSTestConfig.tsx`.

Strings of the JavaScript source are modelled as `List Char` (`Str`), so
that every operation reduces inside the kernel.  JavaScript objects of
type `Record<string, string>` are modelled as insertion-ordered
association lists with last-write-wins assignment (`insertJS`), which is
exactly the observable behaviour of `headers[key] = value`.

Real-time aspects (the `[HH:MM:SS]` log-line timestamp prefix, the
`startTime`/`endTime` `Date` fields and the 100 ms inter-batch pause) are
elided: no claim mentions them.  Log lines are modelled by `LogEntry`,
whose constructors carry the dynamic values interpolated into the
template strings of the source; static messages keep their exact text.
-/

set_option maxRecDepth 4000

namespace LoadTest

abbrev Str := List Char

/-- Splitting on a single separator character, as JavaScript
`s.split(sep)` behaves for a one-character separator:
`"".split(':') = [""]`, `"a:".split(':') = ["a", ""]`. -/
def splitOnChar (sep : Char) : Str → List Str
  | [] => [[]]
  | c :: cs =>
    match splitOnChar sep cs with
    | [] => [[]]
    | g :: gs => if c = sep then [] :: g :: gs else (c :: g) :: gs

/-- JavaScript `s.trim()`: drop leading and trailing whitespace. -/
def jsTrim (s : Str) : Str :=
  ((s.dropWhile Char.isWhitespace).reverse.dropWhile Char.isWhitespace).reverse

/-- Headers object `Record<string, string>` as an insertion-ordered
association list. -/
abbrev Headers := List (Str × Str)

def keyEq (k : Str) (p : Str × Str) : Bool := decide (p.1 = k)

/-- JavaScript property read `hs[k]` (first, and only, entry with that key). -/
def hget (hs : Headers) (k : Str) : Option Str := (hs.find? (keyEq k)).map Prod.snd

def hasKey (hs : Headers) (k : Str) : Bool := hs.any (keyEq k)

/-- JavaScript property assignment `hs[k] = v`: overwrite the value in
place when the key is present, append the pair otherwise. -/
def insertJS (hs : Headers) (k v : Str) : Headers :=
  if hasKey hs k then hs.map (fun p => if p.1 = k then (k, v) else p)
  else hs ++ [(k, v)]

/-- One iteration of the `forEach` body at lines 56-61 of
`DDoSTestConfig.tsx`: `const [key, value] = header.split(':').map(s => s.trim())`
keeps only pieces 0 and 1 of the split; the line is used only when both
destructured components are non-empty strings. -/
def addHeaderLine (hs : Headers) (line : Str) : Headers :=
  match (splitOnChar ':' line).map jsTrim with
  | k :: v :: _ => if k ≠ [] ∧ v ≠ [] then insertJS hs k v else hs
  | _ => hs

/-- Lines 54-62 of `parseHeaders`: the custom-header text is split on
newlines and folded line by line (guarded by `if (headersString.trim())`). -/
def parseCustomHeaders (s : Str) : Headers :=
  if jsTrim s ≠ [] then (splitOnChar '\n' s).foldl addHeaderLine [] else []

def bearerTag : Str := "Bearer ".toList

def authKey : Str := "Authorization".toList

/-- Lines 64-66: the derived Authorization value. -/
def withBearer (t : Str) : Str := if bearerTag.isPrefixOf t then t else bearerTag ++ t

/-- Function `parseHeaders` (lines 53-69): parse the custom headers, then when the
token is truthy (non-empty) assign the derived Authorization value. -/
def parseHeaders (headersString : Str) (authToken : Str) : Headers :=
  if authToken ≠ [] then
    insertJS (parseCustomHeaders headersString) authKey (withBearer authToken)
  else parseCustomHeaders headersString

example : parseHeaders "X-Test: 1\nBadLine\nY: 2".toList [] =
    [("X-Test".toList, "1".toList), ("Y".toList, "2".toList)] := by decide

example : parseHeaders "X: a:b".toList [] = [("X".toList, "a".toList)] := by decide

example : parseHeaders [] "abc".toList = [(authKey, "Bearer abc".toList)] := by decide

example : parseHeaders [] "Bearer abc".toList = [(authKey, "Bearer abc".toList)] := by decide

/-- Configuration record `TestConfig` (lines 13-21).  The numeric fields
are naturals; the claims under study only concern counts ≥ 1. -/
structure TestConfig where
  url : Str
  method : Str
  requestCount : Nat
  concurrency : Nat
  payload : Str
  authToken : Str
  headers : Str
deriving DecidableEq

/-- Result of one settled request (the object literals at lines 89-93 and
96-100).  Elapsed times are rationals standing for the millisecond values
of `performance.now()` differences. -/
structure Outcome where
  success : Bool
  status : Option Nat
  error : Option Str
  responseTime : ℚ
deriving DecidableEq

/-- Behaviour of one `fetch` call: either it resolves with a response
carrying a status code (any code, including 4xx/5xx) or it rejects.  A
rejection carries `some msg` when the thrown value is an `Error` with
message `msg`, and `none` for a non-`Error` thrown value. -/
inductive FetchBehavior where
  | response (status : Nat)
  | failure (errMsg : Option Str)
deriving DecidableEq

/-- Options object passed to `fetch` (lines 73-83). -/
structure RequestOptions where
  method : Str
  headers : Headers
  body : Option Str
deriving DecidableEq

def contentTypeKey : Str := "Content-Type".toList

def jsonMediaType : Str := "application/json".toList

def getMethod : Str := "GET".toList

/-- Spreading a headers object over a base object:
`{'Content-Type': ..., ...headers}` assigns each custom entry in order
after the default entry. -/
def spreadOver (base : Headers) (hs : Headers) : Headers :=
  hs.foldl (fun acc p => insertJS acc p.1 p.2) base

/-- Lines 72-83: build the `RequestInit` options.  The body is attached
only when the method is not GET and the payload is non-empty (truthy). -/
def buildRequestOptions (cfg : TestConfig) : RequestOptions :=
  { method := cfg.method
    headers := spreadOver [(contentTypeKey, jsonMediaType)] (parseHeaders cfg.headers cfg.authToken)
    body := if cfg.method ≠ getMethod ∧ cfg.payload ≠ [] then some cfg.payload else none }

def unknownErrorMsg : Str := "Unknown error".toList

/-- Lines 86-101: classification of the settled `fetch` call.  The
function is total: both the resolved and the rejected branch produce an
`Outcome`, so `makeRequest` never raises to its caller. -/
def classifyFetch (fr : FetchBehavior) (elapsed : ℚ) : Outcome :=
  match fr with
  | .response s => { success := true, status := some s, error := none, responseTime := elapsed }
  | .failure m =>
    { success := false, status := none, error := some (m.getD unknownErrorMsg)
      responseTime := elapsed }

/-- Function `makeRequest` (lines 71-102), with the transport abstracted as a
function from the built request options to a `FetchBehavior` and the
measured wall-clock time as a parameter. -/
def makeRequest (cfg : TestConfig) (fetchFn : RequestOptions → FetchBehavior) (elapsed : ℚ) :
    Outcome :=
  classifyFetch (fetchFn (buildRequestOptions cfg)) elapsed

/-- Result record `TestResult` (lines 23-31); the `Date` fields are
elided (real time). -/
structure TestResult where
  totalRequests : Nat
  successfulRequests : Nat
  failedRequests : Nat
  averageResponseTime : ℚ
  isRunning : Bool
deriving DecidableEq

/-- One element of the `Promise.allSettled` result array (line 134). -/
inductive Settled where
  | fulfilled (o : Outcome)
  | rejected
deriving DecidableEq

/-- Log lines (`addLog`, line 48).  Constructors carry the dynamic values
interpolated into the template strings of the source; the timestamp
prefix is elided. -/
inductive LogEntry where
  | text (msg : Str)
  | starting (url : Str)
  | configInfo (requestCount concurrency : Nat)
  | batchCompleted (batch totalBatches succ fail : Nat)
  | results (succ fail : Nat)
  | avgResponse (avg : ℚ)
deriving DecidableEq

def urlRequiredMsg : Str := "Error: URL is required".toList

def stopMsg : Str := "Test stopped by user".toList

def testCompletedMsg : Str := "Test completed".toList

/-- Line 127: `totalBatches = Math.ceil(requestCount / batchSize)` where
`batchSize` is the configured concurrency (assumed ≥ 1, as the form
enforces `min="1"`). -/
def totalBatches (requestCount concurrency : Nat) : Nat :=
  (requestCount + concurrency - 1) / concurrency

/-- Line 130: `requestsInBatch = Math.min(batchSize, requestCount - batch * batchSize)`. -/
def batchSize (requestCount concurrency b : Nat) : Nat :=
  min concurrency (requestCount - b * concurrency)

def batchSizes (requestCount concurrency : Nat) : List Nat :=
  (List.range (totalBatches requestCount concurrency)).map (batchSize requestCount concurrency)

/-- Accumulated effect of the batch loop (lines 129-162): the local
variables `testResult.successfulRequests`, `testResult.failedRequests`
and `responseTimes`, together with the observable trace of dispatched
batch indices, `setCurrentProgress` values and per-batch log lines. -/
structure RunAccum where
  dispatched : List Nat
  successfulRequests : Nat
  failedRequests : Nat
  responseTimes : List ℚ
  progressValues : List ℚ
  batchLogs : List LogEntry
deriving DecidableEq

/-- Lines 136-147: fold one settled promise into the tallies.  A
fulfilled outcome bumps exactly one counter and always records its
response time; a rejected promise only bumps the failure counter. -/
def foldOutcome (acc : RunAccum) (r : Settled) : RunAccum :=
  match r with
  | .fulfilled o =>
    if o.success then
      { acc with successfulRequests := acc.successfulRequests + 1
                 responseTimes := acc.responseTimes ++ [o.responseTime] }
    else
      { acc with failedRequests := acc.failedRequests + 1
                 responseTimes := acc.responseTimes ++ [o.responseTime] }
  | .rejected => { acc with failedRequests := acc.failedRequests + 1 }

/-- Settled array of one batch (lines 131-134).  `makeRequest` is an
`async` function whose body catches every transport error, so each of the
`batchPromises` fulfils with the oracle's outcome for that slot; the
`Promise.allSettled` list is therefore all-`fulfilled`. -/
def batchSettled (N C : Nat) (oracle : Nat → Nat → Outcome) (b : Nat) : List Settled :=
  (List.range (batchSize N C b)).map (fun i => Settled.fulfilled (oracle b i))

/-- Lines 149-153: after folding a batch, progress
`((batch + 1) / totalBatches) * 100` is reported and the batch log line
with the running tallies is emitted. -/
def postBatch (m b : Nat) (acc2 : RunAccum) : RunAccum :=
  { acc2 with
      progressValues := acc2.progressValues ++ [((b + 1 : ℚ) / (m : ℚ)) * 100]
      batchLogs := acc2.batchLogs ++
        [.batchCompleted (b + 1) m acc2.successfulRequests acc2.failedRequests] }

/-- One iteration of the batch loop (lines 129-158): dispatch the batch,
fold its settled outcomes, then report progress and the log line.  The
100 ms pause (line 157) is real time and is elided. -/
def runBatch (N C m : Nat) (oracle : Nat → Nat → Outcome) (acc : RunAccum) (b : Nat) :
    RunAccum :=
  postBatch m b
    ((batchSettled N C oracle b).foldl foldOutcome
      { acc with dispatched := acc.dispatched ++ [b] })

def initAccum : RunAccum := ⟨[], 0, 0, [], [], []⟩

/-- The whole batch loop of `runTest` (lines 129-162). -/
def runCore (N C : Nat) (oracle : Nat → Nat → Outcome) : RunAccum :=
  (List.range (totalBatches N C)).foldl (runBatch N C (totalBatches N C) oracle) initAccum

/-- Line 166-168: average of the recorded times, 0 when none were recorded. -/
def averageOf (ts : List ℚ) : ℚ :=
  if ts.length > 0 then ts.foldl (fun sum time => sum + time) 0 / (ts.length : ℚ) else 0

/-- Component state observable by the presentation layer: the `result`,
`currentProgress` and `logs` React states (lines 44-46). -/
structure ComponentState where
  result : Option TestResult
  currentProgress : ℚ
  logs : List LogEntry
deriving DecidableEq

/-- Lines 110-173 of `runTest` for a truthy URL: the logs are reset
(line 121) and seeded with the start lines, the batch loop of `runCore`
runs to the end, and the final `TestResult` is published with
`isRunning := false` and the average response time (lines 164-173).  The
published `currentProgress` is the last value reported inside the loop,
or the initial 0 of line 120 when there was no batch. -/
def finishRun (cfg : TestConfig) (oracle : Nat → Nat → Outcome) : ComponentState :=
  { result := some
      { totalRequests := cfg.requestCount
        successfulRequests := (runCore cfg.requestCount cfg.concurrency oracle).successfulRequests
        failedRequests := (runCore cfg.requestCount cfg.concurrency oracle).failedRequests
        averageResponseTime :=
          averageOf (runCore cfg.requestCount cfg.concurrency oracle).responseTimes
        isRunning := false }
    currentProgress :=
      ((runCore cfg.requestCount cfg.concurrency oracle).progressValues.getLast?).getD 0
    logs := [.starting cfg.url, .configInfo cfg.requestCount cfg.concurrency]
        ++ (runCore cfg.requestCount cfg.concurrency oracle).batchLogs
        ++ [.text testCompletedMsg,
            .results (runCore cfg.requestCount cfg.concurrency oracle).successfulRequests
              (runCore cfg.requestCount cfg.concurrency oracle).failedRequests,
            .avgResponse
              (averageOf (runCore cfg.requestCount cfg.concurrency oracle).responseTimes)] }

/-- Function `runTest` (lines 104-174).  When the URL is falsy (empty) only the
error log line is emitted and nothing else changes (lines 105-108).
Otherwise the run executes as `finishRun`.  The request outcomes are
supplied by `oracle b i` for slot `i` of batch `b`. -/
def runTest (cfg : TestConfig) (oracle : Nat → Nat → Outcome) (st : ComponentState) :
    ComponentState :=
  if cfg.url = [] then { st with logs := st.logs ++ [.text urlRequiredMsg] }
  else finishRun cfg oracle

/-- Function `stopTest` (lines 176-181): when a result exists — running or not —
its `isRunning` flag is cleared and the stop message is logged; nothing
else in the component changes, and `runTest`'s loop consults none of it. -/
def stopTest (st : ComponentState) : ComponentState :=
  match st.result with
  | some r =>
    { st with result := some { r with isRunning := false }, logs := st.logs ++ [.text stopMsg] }
  | none => st

example : batchSizes 10 3 = [3, 3, 3, 1] := by decide

example : totalBatches 10 3 = 4 := by decide

example :
    (runCore 2 1 (fun _ _ => ⟨true, some 200, none, 5⟩)).dispatched = [0, 1] := by decide

example :
    (runCore 10 3 (fun _ _ => ⟨true, some 200, none, 5⟩)).progressValues =
      [25, 50, 75, 100] := by
  simp [runCore, runBatch, postBatch, batchSettled, foldOutcome, initAccum, totalBatches,
    batchSize, List.range_succ]
  norm_num

example :
    (runCore 3 2 (fun _ _ => ⟨false, none, some unknownErrorMsg, 7⟩)).failedRequests = 3 := by
  decide

section HeaderLemmas

variable {k k' : Str}

theorem keyEq_true_of (p : Str × Str) (h : p.1 = k) : keyEq k p = true := by
  simp [keyEq, h]

theorem keyEq_false_of (p : Str × Str) (h : ¬p.1 = k) : keyEq k p = false := by
  simp [keyEq, h]

theorem find?_map_overwrite (k v : Str) (hs : Headers) :
    (hs.map (fun p => if p.1 = k then (k, v) else p)).find? (keyEq k) =
      if hs.any (keyEq k) then some (k, v) else none := by
  induction hs with
  | nil => rfl
  | cons p rest ih =>
    rw [List.map_cons, List.any_cons]
    by_cases hp : p.1 = k
    · rw [if_pos hp, keyEq_true_of p hp, Bool.true_or,
        List.find?_cons_of_pos _ (keyEq_true_of (k, v) rfl), if_pos rfl]
    · rw [if_neg hp, keyEq_false_of p hp, Bool.false_or,
        List.find?_cons_of_neg _ (by rw [keyEq_false_of p hp]; exact Bool.false_ne_true), ih]

theorem find?_map_other (hne : k' ≠ k) (v : Str) (hs : Headers) :
    (hs.map (fun p => if p.1 = k then (k, v) else p)).find? (keyEq k') =
      hs.find? (keyEq k') := by
  induction hs with
  | nil => rfl
  | cons p rest ih =>
    rw [List.map_cons]
    by_cases hp : p.1 = k
    · have hp' : ¬p.1 = k' := fun h => hne (h ▸ hp ▸ rfl)
      rw [if_pos hp,
        List.find?_cons_of_neg _
          (by rw [keyEq_false_of (k, v) (Ne.symm hne)]; exact Bool.false_ne_true),
        List.find?_cons_of_neg _ (by rw [keyEq_false_of p hp']; exact Bool.false_ne_true), ih]
    · rw [if_neg hp]
      by_cases hp' : p.1 = k'
      · rw [List.find?_cons_of_pos _ (keyEq_true_of p hp'),
          List.find?_cons_of_pos _ (keyEq_true_of p hp')]
      · rw [List.find?_cons_of_neg _ (by rw [keyEq_false_of p hp']; exact Bool.false_ne_true),
          List.find?_cons_of_neg _ (by rw [keyEq_false_of p hp']; exact Bool.false_ne_true), ih]

theorem find?_append_self (k v : Str) (hs : Headers) (h : hs.any (keyEq k) = false) :
    (hs ++ [(k, v)]).find? (keyEq k) = some (k, v) := by
  induction hs with
  | nil => exact List.find?_cons_of_pos _ (keyEq_true_of (k, v) rfl)
  | cons p rest ih =>
    rw [List.any_cons] at h
    have h1 : keyEq k p = false := by
      cases hkp : keyEq k p
      · rfl
      · rw [hkp, Bool.true_or] at h; exact absurd h (by decide)
    have h2 : rest.any (keyEq k) = false := by
      rw [h1, Bool.false_or] at h; exact h
    rw [List.cons_append, List.find?_cons_of_neg _ (by rw [h1]; exact Bool.false_ne_true), ih h2]

theorem find?_append_other (hne : k' ≠ k) (v : Str) (hs : Headers) :
    (hs ++ [(k, v)]).find? (keyEq k') = hs.find? (keyEq k') := by
  induction hs with
  | nil =>
    rw [List.nil_append,
      List.find?_cons_of_neg _
        (by rw [keyEq_false_of (k, v) (Ne.symm hne)]; exact Bool.false_ne_true)]
  | cons p rest ih =>
    rw [List.cons_append]
    by_cases hp : p.1 = k'
    · rw [List.find?_cons_of_pos _ (keyEq_true_of p hp),
        List.find?_cons_of_pos _ (keyEq_true_of p hp)]
    · rw [List.find?_cons_of_neg _ (by rw [keyEq_false_of p hp]; exact Bool.false_ne_true),
        List.find?_cons_of_neg _ (by rw [keyEq_false_of p hp]; exact Bool.false_ne_true), ih]

theorem hget_insertJS_self (hs : Headers) (k v : Str) :
    hget (insertJS hs k v) k = some v := by
  unfold insertJS
  by_cases h : hasKey hs k
  · rw [if_pos h, hget, find?_map_overwrite]
    unfold hasKey at h
    rw [if_pos h]
    rfl
  · rw [if_neg h, hget, find?_append_self k v hs (by
      unfold hasKey at h
      exact Bool.not_eq_true _ ▸ Bool.of_not_eq_true h)]
    rfl

theorem hget_insertJS_other (hs : Headers) (k v : Str) (hne : k' ≠ k) :
    hget (insertJS hs k v) k' = hget hs k' := by
  unfold insertJS
  by_cases h : hasKey hs k
  · rw [if_pos h, hget, find?_map_other hne, hget]
  · rw [if_neg h, hget, find?_append_other hne, hget]

theorem hasKey_false_of_hget_none (hs : Headers) (h : hget hs k = none) :
    hasKey hs k = false := by
  induction hs with
  | nil => rfl
  | cons p rest ih =>
    by_cases hp : p.1 = k
    · rw [hget, List.find?_cons_of_pos _ (keyEq_true_of p hp)] at h
      exact absurd h (by simp)
    · rw [hget, List.find?_cons_of_neg _ (by rw [keyEq_false_of p hp]; exact Bool.false_ne_true)]
        at h
      rw [hasKey, List.any_cons, keyEq_false_of p hp, Bool.false_or]
      exact ih h

theorem insertJS_append_of_absent (hs : Headers) (k v : Str) (h : hget hs k = none) :
    insertJS hs k v = hs ++ [(k, v)] := by
  unfold insertJS
  rw [hasKey_false_of_hget_none hs h]
  rfl

end HeaderLemmas

/-- Example configuration used by the concrete witnesses. -/
def cfgEx : TestConfig :=
  { url := "https://api.example.com/endpoint".toList
    method := "GET".toList
    requestCount := 10
    concurrency := 3
    payload := []
    authToken := []
    headers := [] }

/-- Oracle whose every request settles as a received response. -/
def oracleOk : Nat → Nat → Outcome := fun _ _ => ⟨true, some 200, none, 5⟩

def emptyState : ComponentState := { result := none, currentProgress := 0, logs := [] }

/-- C4: for every method, target, headers and body, the request executor
never raises to its caller: `makeRequest` is a total function, a
transport failure is converted into an outcome with `success = false`, an
error message and the elapsed time, and a completed response — whatever
its status code, including 4xx/5xx — is converted into an outcome with
`success = true`, the status code and the elapsed time. -/
theorem c4_executor_never_raises (cfg : TestConfig)
    (fetchFn : RequestOptions → FetchBehavior) (elapsed : ℚ) :
    (∀ s, fetchFn (buildRequestOptions cfg) = .response s →
      makeRequest cfg fetchFn elapsed =
        { success := true, status := some s, error := none, responseTime := elapsed }) ∧
    (∀ msg, fetchFn (buildRequestOptions cfg) = .failure msg →
      makeRequest cfg fetchFn elapsed =
        { success := false, status := none, error := some (msg.getD unknownErrorMsg)
          responseTime := elapsed }) := by
  constructor
  · intro s h
    unfold makeRequest
    rw [h]
    rfl
  · intro msg h
    unfold makeRequest
    rw [h]
    rfl

/-- Transport oracle answering every request with a 503 response. -/
def fetch503 : RequestOptions → FetchBehavior := fun _ => .response 503

theorem c4_witness :
    fetch503 (buildRequestOptions cfgEx) = .response 503 ∧
    makeRequest cfgEx fetch503 5 =
      { success := true, status := some 503, error := none, responseTime := 5 } :=
  ⟨rfl, (c4_executor_never_raises cfgEx fetch503 5).1 503 rfl⟩

/-- Header-line semantics written from the words of the claim under
scrutiny: split each line on the FIRST colon only, so that the value is
everything after that colon; trim both sides; keep the line only when
both key and value are non-empty. -/
def addHeaderLineFirstColon (hs : Headers) (line : Str) : Headers :=
  match splitOnChar ':' line with
  | [] => hs
  | [_] => hs
  | k :: rest =>
    if jsTrim k ≠ [] ∧ jsTrim (List.intercalate [':'] rest) ≠ [] then
      insertJS hs (jsTrim k) (jsTrim (List.intercalate [':'] rest))
    else hs

def parseCustomHeadersFirstColon (s : Str) : Headers :=
  if jsTrim s ≠ [] then (splitOnChar '\n' s).foldl addHeaderLineFirstColon [] else []

def parseHeadersFirstColon (headersString : Str) (authToken : Str) : Headers :=
  if authToken ≠ [] then
    insertJS (parseCustomHeadersFirstColon headersString) authKey (withBearer authToken)
  else parseCustomHeadersFirstColon headersString

/-- C5 counterexample: the code does not split a line on the first colon
only.  `header.split(':')` cuts at every colon and the destructuring
`const [key, value]` keeps only the first two pieces, so on the line
`"X: a:b"` the code records the value `"a"` while the first-colon
semantics stated by the claim would record `"a:b"`. -/
theorem c5_counterexample :
    parseHeaders "X: a:b".toList [] = [("X".toList, "a".toList)] ∧
    parseHeadersFirstColon "X: a:b".toList [] = [("X".toList, "a:b".toList)] ∧
    parseHeaders "X: a:b".toList [] ≠ parseHeadersFirstColon "X: a:b".toList [] :=
  ⟨by decide, by decide, by decide⟩

/-- Header-line semantics of the amended claim, stated through `List.get?`
on the colon-split pieces: the key is piece 0 and the value is piece 1
(the text after a second colon is discarded), trimmed, and the line is
kept exactly when both are non-empty. -/
def lineKeyValue (line : Str) : Option (Str × Str) :=
  match ((splitOnChar ':' line).map jsTrim).get? 0, ((splitOnChar ':' line).map jsTrim).get? 1
    with
  | some k, some v => if k ≠ [] ∧ v ≠ [] then some (k, v) else none
  | _, _ => none

def parseCustomHeadersKV (s : Str) : Headers :=
  if jsTrim s ≠ [] then
    (splitOnChar '\n' s).foldl
      (fun hs line =>
        match lineKeyValue line with
        | some kv => insertJS hs kv.1 kv.2
        | none => hs) []
  else []

/-- C5 amended: header parsing splits the text on newlines, splits each
line on EVERY colon keeping piece 0 as key and piece 1 as value (text
after a second colon is silently discarded), trims both, and keeps
exactly the lines yielding a non-empty key and value; the claim's own
example `"X-Test: 1\nBadLine\nY: 2"` with no token still yields exactly
`{"X-Test": "1", "Y": "2"}`. -/
theorem c5_amended_parse :
    (∀ s, parseCustomHeadersKV s = parseCustomHeaders s) ∧
    parseHeaders "X-Test: 1\nBadLine\nY: 2".toList [] =
      [("X-Test".toList, "1".toList), ("Y".toList, "2".toList)] := by
  constructor
  · intro s
    unfold parseCustomHeadersKV parseCustomHeaders
    have hstep :
        (fun (hs : Headers) (line : Str) =>
          match lineKeyValue line with
          | some kv => insertJS hs kv.1 kv.2
          | none => hs) = addHeaderLine := by
      funext hs line
      unfold lineKeyValue addHeaderLine
      rcases h : (splitOnChar ':' line).map jsTrim with _ | ⟨k, tl⟩
      · simp
      · rcases tl with _ | ⟨v, rest⟩
        · simp
        · by_cases hc : k ≠ [] ∧ v ≠ []
          · simp [hc]
          · simp [hc]
    rw [hstep]
  · decide

theorem c5_witness :
    parseCustomHeadersKV "A: b".toList = parseCustomHeaders "A: b".toList :=
  c5_amended_parse.1 "A: b".toList

/-- C6: with a non-empty token the effective headers carry the derived
`Authorization` entry — last-written, overriding a same-named custom
header and literally appended last when no custom `Authorization`
exists — whose value is the token prefixed with `"Bearer "` unless the
token already starts with it (never double-prefixed); every other header
is untouched, and with an empty token no `Authorization` entry is
derived. -/
theorem c6_authorization_header (hs t : Str) :
    (t ≠ [] →
      hget (parseHeaders hs t) authKey = some (withBearer t) ∧
      (∀ k, k ≠ authKey → hget (parseHeaders hs t) k = hget (parseCustomHeaders hs) k) ∧
      (bearerTag.isPrefixOf t = true → withBearer t = t) ∧
      (bearerTag.isPrefixOf t = false → withBearer t = bearerTag ++ t) ∧
      (hget (parseCustomHeaders hs) authKey = none →
        parseHeaders hs t = parseCustomHeaders hs ++ [(authKey, withBearer t)])) ∧
    (t = [] → parseHeaders hs t = parseCustomHeaders hs) := by
  constructor
  · intro ht
    refine ⟨?_, ?_, ?_, ?_, ?_⟩
    · unfold parseHeaders
      rw [if_pos ht]
      exact hget_insertJS_self _ _ _
    · intro k hk
      unfold parseHeaders
      rw [if_pos ht]
      exact hget_insertJS_other _ _ _ hk
    · intro h
      unfold withBearer
      rw [if_pos h]
    · intro h
      unfold withBearer
      rw [if_neg (by rw [h]; exact Bool.false_ne_true)]
    · intro habs
      unfold parseHeaders
      rw [if_pos ht]
      exact insertJS_append_of_absent _ _ _ habs
  · intro ht
    unfold parseHeaders
    rw [if_neg (not_not_intro ht)]

theorem c6_witness :
    ("abc".toList ≠ ([] : Str)) ∧
    hget (parseHeaders "X-Test: 1".toList "abc".toList) authKey =
      some (withBearer "abc".toList) :=
  ⟨by decide, ((c6_authorization_header "X-Test: 1".toList "abc".toList).1 (by decide)).1⟩

def lowerAuthKey : Str := "authorization".toList

/-- C10: the override by the derived `Authorization` entry is
case-sensitive — the entry spelled exactly `Authorization` takes the
derived value, an entry spelled `authorization` is left untouched and
coexists with it, as the evaluated example shows. -/
theorem c10_case_sensitive_override (hs t : Str) (ht : t ≠ []) :
    hget (parseHeaders hs t) authKey = some (withBearer t) ∧
    hget (parseHeaders hs t) lowerAuthKey = hget (parseCustomHeaders hs) lowerAuthKey ∧
    parseHeaders "authorization: x\nAuthorization: y".toList "abc".toList =
      [("authorization".toList, "x".toList), (authKey, "Bearer abc".toList)] := by
  refine ⟨?_, ?_, by decide⟩
  · unfold parseHeaders
    rw [if_pos ht]
    exact hget_insertJS_self _ _ _
  · unfold parseHeaders
    rw [if_pos ht]
    exact hget_insertJS_other _ _ _ (by decide)

theorem c10_witness :
    ("abc".toList ≠ ([] : Str)) ∧
    hget (parseHeaders "authorization: x".toList "abc".toList) authKey =
      some (withBearer "abc".toList) :=
  ⟨by decide, (c10_case_sensitive_override "authorization: x".toList "abc".toList (by decide)).1⟩

section SchedulerLemmas

theorem totalBatches_of_zero (C : Nat) (hC : 1 ≤ C) : totalBatches 0 C = 0 := by
  unfold totalBatches
  exact Nat.div_eq_of_lt (by omega)

theorem totalBatches_of_pos (N C : Nat) (hN : 1 ≤ N) (hC : 1 ≤ C) :
    totalBatches N C = totalBatches (N - C) C + 1 := by
  unfold totalBatches
  rcases Nat.le_total C N with h | h
  · have key : (N - C + C - 1 + C) / C = (N - C + C - 1) / C + 1 :=
      Nat.add_div_right (N - C + C - 1) (by omega)
    rw [show N + C - 1 = N - C + C - 1 + C from by omega, key]
  · have h1 : N - C = 0 := by omega
    have h2 : (0 + C - 1) / C = 0 := Nat.div_eq_of_lt (by omega)
    have h3 : (N + C - 1) / C = 1 := by
      have hlo : 1 * C ≤ N + C - 1 := by omega
      have hhi : N + C - 1 < Nat.succ 1 * C := by omega
      exact Nat.div_eq_of_lt_le hlo hhi
    rw [h1, h2, h3]

theorem batchSizes_of_zero (C : Nat) (hC : 1 ≤ C) : batchSizes 0 C = [] := by
  unfold batchSizes
  rw [totalBatches_of_zero C hC]
  rfl

theorem batchSizes_of_pos (N C : Nat) (hN : 1 ≤ N) (hC : 1 ≤ C) :
    batchSizes N C = min C N :: batchSizes (N - C) C := by
  unfold batchSizes
  rw [totalBatches_of_pos N C hN hC, List.range_succ_eq_map, List.map_cons, List.map_map]
  have hf : batchSize N C ∘ Nat.succ = batchSize (N - C) C := by
    funext b
    show min C (N - Nat.succ b * C) = min C (N - C - b * C)
    have h2 : Nat.succ b * C = b * C + C := Nat.succ_mul b C
    have h3 : N - Nat.succ b * C = N - C - b * C := by omega
    rw [h3]
  rw [hf]
  show min C (N - 0 * C) :: _ = min C N :: _
  rw [Nat.zero_mul, Nat.sub_zero]

theorem batchSizes_sum (N C : Nat) (hC : 1 ≤ C) : (batchSizes N C).sum = N := by
  induction N using Nat.strong_induction_on with
  | _ N ih =>
    rcases Nat.eq_zero_or_pos N with h0 | hpos
    · subst h0
      rw [batchSizes_of_zero C hC]
      rfl
    · rw [batchSizes_of_pos N C hpos hC, List.sum_cons, ih (N - C) (by omega)]
      rcases Nat.le_total C N with h | h
      · rw [Nat.min_eq_left h]
        omega
      · rw [Nat.min_eq_right h]
        omega

theorem foldOutcome_fulfilled_step (acc : RunAccum) (o : Outcome) :
    (foldOutcome acc (.fulfilled o)).successfulRequests
        + (foldOutcome acc (.fulfilled o)).failedRequests
      = acc.successfulRequests + acc.failedRequests + 1 ∧
    (foldOutcome acc (.fulfilled o)).responseTimes.length = acc.responseTimes.length + 1 ∧
    (foldOutcome acc (.fulfilled o)).dispatched = acc.dispatched ∧
    (foldOutcome acc (.fulfilled o)).progressValues = acc.progressValues ∧
    (foldOutcome acc (.fulfilled o)).batchLogs = acc.batchLogs := by
  unfold foldOutcome
  by_cases hs : o.success = true <;> simp [hs] <;> omega

theorem foldOutcome_fulfilled_list (os : List Outcome) (acc : RunAccum) :
    ((os.map Settled.fulfilled).foldl foldOutcome acc).successfulRequests
        + ((os.map Settled.fulfilled).foldl foldOutcome acc).failedRequests
      = acc.successfulRequests + acc.failedRequests + os.length ∧
    ((os.map Settled.fulfilled).foldl foldOutcome acc).responseTimes.length
      = acc.responseTimes.length + os.length ∧
    ((os.map Settled.fulfilled).foldl foldOutcome acc).dispatched = acc.dispatched ∧
    ((os.map Settled.fulfilled).foldl foldOutcome acc).progressValues = acc.progressValues ∧
    ((os.map Settled.fulfilled).foldl foldOutcome acc).batchLogs = acc.batchLogs := by
  induction os generalizing acc with
  | nil => simp
  | cons o os ih =>
    rw [List.map_cons, List.foldl_cons]
    obtain ⟨s1, s2, s3, s4, s5⟩ := foldOutcome_fulfilled_step acc o
    obtain ⟨i1, i2, i3, i4, i5⟩ := ih (foldOutcome acc (.fulfilled o))
    refine ⟨?_, ?_, ?_, ?_, ?_⟩
    · rw [i1, s1, List.length_cons]
      omega
    · rw [i2, s2, List.length_cons]
      omega
    · rw [i3, s3]
    · rw [i4, s4]
    · rw [i5, s5]

theorem runBatch_step (N C m : Nat) (oracle : Nat → Nat → Outcome) (acc : RunAccum) (b : Nat) :
    (runBatch N C m oracle acc b).successfulRequests
        + (runBatch N C m oracle acc b).failedRequests
      = acc.successfulRequests + acc.failedRequests + batchSize N C b ∧
    (runBatch N C m oracle acc b).responseTimes.length
      = acc.responseTimes.length + batchSize N C b ∧
    (runBatch N C m oracle acc b).dispatched = acc.dispatched ++ [b] ∧
    (runBatch N C m oracle acc b).progressValues
      = acc.progressValues ++ [((b + 1 : ℚ) / (m : ℚ)) * 100] ∧
    ∀ e ∈ (runBatch N C m oracle acc b).batchLogs,
      e ∈ acc.batchLogs ∨ ∃ i j s f, e = LogEntry.batchCompleted i j s f := by
  have hrb : runBatch N C m oracle acc b
      = postBatch m b
          (List.foldl foldOutcome { acc with dispatched := acc.dispatched ++ [b] }
            (((List.range (batchSize N C b)).map (oracle b)).map Settled.fulfilled)) := by
    unfold runBatch batchSettled
    rw [List.map_map]
    rfl
  obtain ⟨f1, f2, f3, f4, f5⟩ :=
    foldOutcome_fulfilled_list ((List.range (batchSize N C b)).map (oracle b))
      { acc with dispatched := acc.dispatched ++ [b] }
  rw [hrb]
  simp only [postBatch]
  refine ⟨?_, ?_, ?_, ?_, ?_⟩
  · rw [f1]
    simp
  · rw [f2]
    simp
  · rw [f3]
  · rw [f4]
  · intro e he
    rcases List.mem_append.mp he with h | h
    · left
      rw [f5] at h
      exact h
    · right
      exact ⟨b + 1, m, _, _, List.mem_singleton.mp h⟩

theorem runBatch_fold (N C m : Nat) (oracle : Nat → Nat → Outcome) (bs : List Nat)
    (acc : RunAccum) :
    (bs.foldl (runBatch N C m oracle) acc).successfulRequests
        + (bs.foldl (runBatch N C m oracle) acc).failedRequests
      = acc.successfulRequests + acc.failedRequests + (bs.map (batchSize N C)).sum ∧
    (bs.foldl (runBatch N C m oracle) acc).responseTimes.length
      = acc.responseTimes.length + (bs.map (batchSize N C)).sum ∧
    (bs.foldl (runBatch N C m oracle) acc).dispatched = acc.dispatched ++ bs ∧
    (bs.foldl (runBatch N C m oracle) acc).progressValues
      = acc.progressValues ++ bs.map (fun b : Nat => ((b : ℚ) + 1) / (m : ℚ) * 100) ∧
    ∀ e ∈ (bs.foldl (runBatch N C m oracle) acc).batchLogs,
      e ∈ acc.batchLogs ∨ ∃ i j s f, e = LogEntry.batchCompleted i j s f := by
  induction bs generalizing acc with
  | nil => exact ⟨by simp, by simp, by simp, by simp, fun e he => Or.inl he⟩
  | cons b bs ih =>
    rw [List.foldl_cons]
    obtain ⟨s1, s2, s3, s4, s5⟩ := runBatch_step N C m oracle acc b
    obtain ⟨i1, i2, i3, i4, i5⟩ := ih (runBatch N C m oracle acc b)
    refine ⟨?_, ?_, ?_, ?_, ?_⟩
    · rw [i1, s1, List.map_cons, List.sum_cons]
      omega
    · rw [i2, s2, List.map_cons, List.sum_cons]
      omega
    · rw [i3, s3, List.append_assoc, List.singleton_append]
    · rw [i4, s4, List.map_cons, List.append_assoc, List.singleton_append]
    · intro e he
      rcases i5 e he with h | h
      · exact s5 e h
      · exact Or.inr h

theorem runCore_spec (N C : Nat) (oracle : Nat → Nat → Outcome) (hC : 1 ≤ C) :
    (runCore N C oracle).successfulRequests + (runCore N C oracle).failedRequests = N ∧
    (runCore N C oracle).responseTimes.length = N ∧
    (runCore N C oracle).dispatched = List.range (totalBatches N C) ∧
    (runCore N C oracle).progressValues
      = (List.range (totalBatches N C)).map
          (fun b : Nat => ((b : ℚ) + 1) / (totalBatches N C : ℚ) * 100) ∧
    ∀ e ∈ (runCore N C oracle).batchLogs, ∃ i j s f, e = LogEntry.batchCompleted i j s f := by
  obtain ⟨h1, h2, h3, h4, h5⟩ :=
    runBatch_fold N C (totalBatches N C) oracle (List.range (totalBatches N C)) initAccum
  have hsum : ((List.range (totalBatches N C)).map (batchSize N C)).sum = N :=
    batchSizes_sum N C hC
  refine ⟨?_, ?_, ?_, ?_, ?_⟩
  · show ((List.range (totalBatches N C)).foldl
        (runBatch N C (totalBatches N C) oracle) initAccum).successfulRequests
      + ((List.range (totalBatches N C)).foldl
        (runBatch N C (totalBatches N C) oracle) initAccum).failedRequests = N
    rw [h1, hsum]
    simp [initAccum]
  · show ((List.range (totalBatches N C)).foldl
        (runBatch N C (totalBatches N C) oracle) initAccum).responseTimes.length = N
    rw [h2, hsum]
    simp [initAccum]
  · show ((List.range (totalBatches N C)).foldl
        (runBatch N C (totalBatches N C) oracle) initAccum).dispatched
      = List.range (totalBatches N C)
    rw [h3]
    rfl
  · show ((List.range (totalBatches N C)).foldl
        (runBatch N C (totalBatches N C) oracle) initAccum).progressValues = _
    rw [h4]
    rfl
  · intro e he
    rcases h5 e he with h | h
    · exact absurd h (List.not_mem_nil e)
    · exact h

end SchedulerLemmas

/-- C7: the scheduler computes `totalBatches` as the ceiling of `N / C` —
characterized as the least `t` with `N ≤ C * t` — and the size of 0-based
batch `b` equals `min(C, N - b*C)`; in particular `N = 10, C = 3` yields
4 batches of sizes `[3, 3, 3, 1]`. -/
theorem c7_batch_partition (N C : Nat) (hC : 1 ≤ C) :
    N ≤ C * totalBatches N C ∧
    (∀ t, N ≤ C * t → totalBatches N C ≤ t) ∧
    (∀ b, batchSize N C b = min C (N - b * C)) ∧
    totalBatches 10 3 = 4 ∧ batchSizes 10 3 = [3, 3, 3, 1] := by
  refine ⟨?_, ?_, fun b => rfl, by decide, by decide⟩
  · have hd := Nat.div_add_mod (N + C - 1) C
    have hm : (N + C - 1) % C < C := Nat.mod_lt _ (by omega)
    unfold totalBatches
    omega
  · intro t ht
    unfold totalBatches
    have hmono : (N + C - 1) / C ≤ (C * t + C - 1) / C := Nat.div_le_div_right (by omega)
    have h2 : (C - 1 + t * C) / C = (C - 1) / C + t := Nat.add_mul_div_right _ _ (by omega)
    have h3 : (C - 1) / C = 0 := Nat.div_eq_of_lt (by omega)
    have h4 : C * t + C - 1 = C - 1 + t * C := by
      have := Nat.mul_comm C t
      omega
    have h5 : (C * t + C - 1) / C = (C - 1 + t * C) / C := by rw [h4]
    omega

theorem c7_witness :
    1 ≤ 3 ∧ batchSizes 10 3 = [3, 3, 3, 1] ∧ totalBatches 10 3 = 4 :=
  ⟨by decide, (c7_batch_partition 10 3 (by decide)).2.2.2.2,
    (c7_batch_partition 10 3 (by decide)).2.2.2.1⟩

/-- C3: every completed run with total request count `N` ends with
`successCount + failCount = N` and exactly `N` recorded response times —
one time is recorded for every settled outcome, successes and failures
alike. -/
theorem c3_totals (cfg : TestConfig) (oracle : Nat → Nat → Outcome) (st : ComponentState)
    (hC : 1 ≤ cfg.concurrency) (hurl : cfg.url ≠ []) :
    ∃ tr, (runTest cfg oracle st).result = some tr ∧ tr.isRunning = false ∧
      tr.totalRequests = cfg.requestCount ∧
      tr.successfulRequests + tr.failedRequests = cfg.requestCount ∧
      (runCore cfg.requestCount cfg.concurrency oracle).responseTimes.length
        = cfg.requestCount := by
  obtain ⟨h1, h2, _, _, _⟩ := runCore_spec cfg.requestCount cfg.concurrency oracle hC
  have hrt : runTest cfg oracle st = finishRun cfg oracle := by
    unfold runTest
    rw [if_neg hurl]
  rw [hrt]
  exact ⟨_, rfl, rfl, rfl, h1, h2⟩

theorem c3_witness :
    ∃ tr, (runTest cfgEx oracleOk emptyState).result = some tr ∧ tr.isRunning = false ∧
      tr.totalRequests = cfgEx.requestCount ∧
      tr.successfulRequests + tr.failedRequests = cfgEx.requestCount ∧
      (runCore cfgEx.requestCount cfgEx.concurrency oracleOk).responseTimes.length
        = cfgEx.requestCount :=
  c3_totals cfgEx oracleOk emptyState (by decide) (by decide)

/-- C8: the progress value reported after 0-based batch `b` is exactly
`((b + 1) / totalBatches) * 100`; the sequence of reported values is
monotonically non-decreasing, its last element is exactly 100, and every
earlier element is strictly below 100 — so 100 is reached exactly on the
final snapshot of a run that executed all its batches. -/
theorem c8_progress_monotone (N C : Nat) (oracle : Nat → Nat → Outcome)
    (hN : 1 ≤ N) (hC : 1 ≤ C) :
    (runCore N C oracle).progressValues
      = (List.range (totalBatches N C)).map
          (fun b : Nat => ((b : ℚ) + 1) / (totalBatches N C : ℚ) * 100) ∧
    List.Chain' (· ≤ ·) (runCore N C oracle).progressValues ∧
    (runCore N C oracle).progressValues.getLast? = some 100 ∧
    ∀ q ∈ (runCore N C oracle).progressValues.dropLast, q < 100 := by
  obtain ⟨_, _, _, h4, _⟩ := runCore_spec N C oracle hC
  have hm1 : 1 ≤ totalBatches N C := by
    unfold totalBatches
    rw [Nat.one_le_div_iff (by omega)]
    omega
  have hm0 : (0 : ℚ) < (totalBatches N C : ℚ) := by exact_mod_cast hm1
  obtain ⟨k, hk⟩ : ∃ k, totalBatches N C = k + 1 := ⟨totalBatches N C - 1, by omega⟩
  refine ⟨h4, ?_, ?_, ?_⟩
  · rw [h4]
    refine List.Pairwise.chain' ?_
    refine List.Pairwise.map _ ?_ (List.pairwise_lt_range (totalBatches N C))
    intro a b hab
    have h1 : ((a : ℚ) + 1) ≤ ((b : ℚ) + 1) := by
      have : (a + 1 : Nat) ≤ (b + 1 : Nat) := by omega
      exact_mod_cast this
    exact mul_le_mul_of_nonneg_right ((div_le_div_iff_of_pos_right hm0).mpr h1) (by norm_num)
  · rw [h4, hk, List.range_succ, List.map_append, List.map_singleton, List.getLast?_concat]
    have hone : ((k : ℚ) + 1) / (((k + 1 : Nat)) : ℚ) * 100 = 100 := by
      rw [show (((k + 1 : Nat)) : ℚ) = (k : ℚ) + 1 from by push_cast; ring,
        div_self (by positivity)]
      ring
    rw [hone]
  · rw [h4, hk, List.range_succ, List.map_append, List.map_singleton, List.dropLast_concat]
    intro q hq
    rw [List.mem_map] at hq
    obtain ⟨b, hb, rfl⟩ := hq
    rw [List.mem_range] at hb
    have hk0 : (0 : ℚ) < (((k + 1 : Nat)) : ℚ) := by
      exact_mod_cast Nat.succ_pos k
    have hblt : (b : ℚ) + 1 < (((k + 1 : Nat)) : ℚ) := by
      have : (b + 1 : Nat) < (k + 1 : Nat) := by omega
      exact_mod_cast this
    have hdiv : ((b : ℚ) + 1) / (((k + 1 : Nat)) : ℚ) < 1 := (div_lt_one hk0).mpr hblt
    calc ((b : ℚ) + 1) / (((k + 1 : Nat)) : ℚ) * 100
        < 1 * 100 := mul_lt_mul_of_pos_right hdiv (by norm_num)
      _ = 100 := one_mul 100

theorem c8_witness :
    1 ≤ 10 ∧ 1 ≤ 3 ∧
    List.Chain' (· ≤ ·) (runCore 10 3 oracleOk).progressValues ∧
    (runCore 10 3 oracleOk).progressValues.getLast? = some 100 :=
  ⟨by decide, by decide, (c8_progress_monotone 10 3 oracleOk (by decide) (by decide)).2.1,
    (c8_progress_monotone 10 3 oracleOk (by decide) (by decide)).2.2.1⟩

/-- C1 (code defect): the batch loop of `runTest` consults no
cancellation flag whatsoever — `stopTest` writes only to the published
`result`/`logs` states, which the loop never reads — so every run
dispatches every batch index of `List.range totalBatches`; in particular
for `requestCount = 2, concurrency = 1` (2 batches), a stop requested
after batch 1 settles does not prevent batch index 1 (the second batch)
from being dispatched. -/
theorem c1_no_cancellation_check (N C : Nat) (oracle : Nat → Nat → Outcome) :
    (runCore N C oracle).dispatched = List.range (totalBatches N C) ∧
    (runCore 2 1 oracleOk).dispatched = [0, 1] := by
  obtain ⟨_, _, h3, _, _⟩ :=
    runBatch_fold N C (totalBatches N C) oracle (List.range (totalBatches N C)) initAccum
  constructor
  · show ((List.range (totalBatches N C)).foldl
        (runBatch N C (totalBatches N C) oracle) initAccum).dispatched
      = List.range (totalBatches N C)
    rw [h3]
    rfl
  · decide

/-- Completed-run component state used by the C2 counterexample: the
last run has already finished (`isRunning = false`). -/
def completedResultEx : TestResult :=
  { totalRequests := 10, successfulRequests := 9, failedRequests := 1
    averageResponseTime := 5, isRunning := false }

def completedStateEx : ComponentState :=
  { result := some completedResultEx, currentProgress := 100, logs := [] }

/-- C2 counterexample: in a state whose run has already completed —
`result` exists with `isRunning = false`, so the controller is not
Running — `stopTest` is NOT a no-op: it still appends the
"Test stopped by user" log line, because `stopTest` only checks that a
result exists (`if (result)`), not that it is running. -/
theorem c2_counterexample :
    completedStateEx.result = some completedResultEx ∧
    completedResultEx.isRunning = false ∧
    stopTest completedStateEx ≠ completedStateEx ∧
    (stopTest completedStateEx).logs = [LogEntry.text stopMsg] :=
  ⟨rfl, rfl, by decide, rfl⟩

/-- C2 amended: `stopTest` is a no-op exactly when no run has ever been
started (`result` is `null`); whenever a result exists — running or
already finished — it sets that result's `isRunning` to `false` and
appends the stop log line, touching nothing else.  No cancellation flag
exists: the batch loop reads none of the state `stopTest` writes. -/
theorem c2_stop_behaviour (st : ComponentState) :
    (st.result = none → stopTest st = st) ∧
    (∀ r, st.result = some r →
      stopTest st =
        { st with result := some { r with isRunning := false }
                  logs := st.logs ++ [LogEntry.text stopMsg] }) := by
  constructor
  · intro h
    unfold stopTest
    rw [h]
  · intro r h
    unfold stopTest
    rw [h]

theorem c2_witness :
    stopTest completedStateEx =
      { completedStateEx with
          result := some { completedResultEx with isRunning := false }
          logs := completedStateEx.logs ++ [LogEntry.text stopMsg] } :=
  (c2_stop_behaviour completedStateEx).2 completedResultEx rfl

/-- C9: with an empty target URL, `runTest` emits only the
"Error: URL is required" log line and leaves everything else — including
the published result — unchanged, dispatching nothing; with a non-empty
URL the validation failure never occurs: the run executes, publishes a
final result for the configured request count, and the URL-required
error line appears nowhere in its log output. -/
theorem c9_url_validation (cfg : TestConfig) (oracle : Nat → Nat → Outcome)
    (st : ComponentState) :
    (cfg.url = [] →
      runTest cfg oracle st = { st with logs := st.logs ++ [LogEntry.text urlRequiredMsg] }) ∧
    (cfg.url ≠ [] →
      (∃ tr, (runTest cfg oracle st).result = some tr ∧
        tr.totalRequests = cfg.requestCount) ∧
      LogEntry.text urlRequiredMsg ∉ (runTest cfg oracle st).logs) := by
  constructor
  · intro h
    unfold runTest
    rw [if_pos h]
  · intro h
    have hrt : runTest cfg oracle st = finishRun cfg oracle := by
      unfold runTest
      rw [if_neg h]
    rw [hrt]
    refine ⟨⟨_, rfl, rfl⟩, ?_⟩
    intro hmem
    obtain ⟨_, _, _, _, h5⟩ :=
      runBatch_fold cfg.requestCount cfg.concurrency
        (totalBatches cfg.requestCount cfg.concurrency) oracle
        (List.range (totalBatches cfg.requestCount cfg.concurrency)) initAccum
    rcases List.mem_append.mp hmem with h1 | h1
    · rcases List.mem_append.mp h1 with h2 | h2
      · rcases List.mem_cons.mp h2 with he | h2'
        · exact LogEntry.noConfusion he
        · rcases List.mem_cons.mp h2' with he | h2''
          · exact LogEntry.noConfusion he
          · exact absurd h2'' (List.not_mem_nil _)
      · rcases h5 _ h2 with hx | ⟨i, j, s, f, hx⟩
        · exact absurd hx (List.not_mem_nil _)
        · exact LogEntry.noConfusion hx
    · rcases List.mem_cons.mp h1 with he | h1'
      · have hmsg : urlRequiredMsg = testCompletedMsg := by injection he
        exact absurd hmsg (by decide)
      · rcases List.mem_cons.mp h1' with he | h1''
        · exact LogEntry.noConfusion he
        · rcases List.mem_cons.mp h1'' with he | h1'''
          · exact LogEntry.noConfusion he
          · exact absurd h1''' (List.not_mem_nil _)

/-- Configuration with an empty target URL. -/
def cfgNoUrl : TestConfig := { cfgEx with url := [] }

theorem c9_witness :
    runTest cfgNoUrl oracleOk emptyState
      = { emptyState with logs := emptyState.logs ++ [LogEntry.text urlRequiredMsg] } ∧
    LogEntry.text urlRequiredMsg ∉ (runTest cfgEx oracleOk emptyState).logs :=
  ⟨(c9_url_validation cfgNoUrl oracleOk emptyState).1 rfl,
    ((c9_url_validation cfgEx oracleOk emptyState).2 (by decide)).2⟩

end LoadTest
